import Mathlib

/-!
Shallow embedding of the sync engine of `office-local-llm`
(`src/main/syncfs/syncfs.ts` and `src/main/syncfs/s3.ts`).

Modelling conventions:
* timestamps (`Date` values, `fs.Stats.mtime`, S3 `LastModified`, the
  `x-original-mtime` custom metadata) are abstract instants represented by
  `Nat`; `Date.toISOString` and `new Date(iso)` are mutually inverse, so the
  ISO-8601 wire format is represented by the instant it denotes;
* the local directory tree handed to `readdir`/`stat` is a `List FsEntry`
  (one list per directory, in `readdir` order);
* fallible filesystem / network primitives are oracles of type
  `Except S3Error _` (or `Except String _` for local fs errors): the oracle
  says what the awaited call would have returned or thrown;
* `Buffer.from(path).toString('base64')`, the id encoding of a tree node, is
  an injective encoding of the relative path; it is modelled by the relative
  path itself.
-/

namespace SyncFs

/-- A local filesystem entry as seen through `readdir(..., {withFileTypes:
true})` together with the `stat` data the code reads (`size`, `birthtime`,
`mtime`).  A directory carries its own `readdir` listing. -/
inductive FsEntry where
  | file (name : String) (size : Nat) (birthtime : Nat) (mtime : Nat)
  | dir (name : String) (birthtime : Nat) (mtime : Nat) (entries : List FsEntry)

/-- Name of an entry (`entry.name`). -/
def FsEntry.name : FsEntry → String
  | .file n _ _ _ => n
  | .dir n _ _ _ => n

/-- `entry.name.startsWith('.')`, the dotfile test used by `scanDirectory`
(syncfs.ts:459) and `syncAllFiles` (syncfs.ts:550): the first character is a
dot.  (`String.startsWith` itself is byte-level and does not reduce in the
kernel, so the test is expressed on the character list.) -/
def startsWithDot (s : String) : Bool :=
  match s.data with
  | [] => false
  | c :: _ => c == '.'

/-- `path.join` restricted to the relative-path shapes the code builds
(segments never empty, separators already normalised to `/`). -/
def joinRel (base : String) (name : String) : String :=
  if base = "" then name
  else if base = "/" then "/" ++ name
  else base ++ "/" ++ name

/-- `s.startsWith('/') ? s.substring(1) : s` (syncfs.ts:168, s3.ts:205,
s3.ts:248), expressed on the character list. -/
def stripLeadingSlash (s : String) : String :=
  match s.data with
  | '/' :: rest => String.mk rest
  | _ => s

/-- `FileSystemNode` (syncfs.ts:17-27).  `type` is the literal `"file"` or
`"folder"`; optional stats mirror the optional fields of the interface. -/
inductive FileSystemNode where
  | mk (id : String) (name : String) (type : String) (path : String)
      (size : Option Nat) (createdAt : Option Nat) (modifiedAt : Option Nat)
      (children : Option (List FileSystemNode)) (isLeaf : Bool)

/-- Projection: node name. -/
def FileSystemNode.name : FileSystemNode → String
  | .mk _ n _ _ _ _ _ _ _ => n

/-- Projection: node children (folders only). -/
def FileSystemNode.children : FileSystemNode → Option (List FileSystemNode)
  | .mk _ _ _ _ _ _ _ c _ => c

/-- `scanDirectory(dirPath, relativePath)` (syncfs.ts:452-502): walks the
`readdir` listing in order, skips every entry whose name starts with `.`
(line 459), and builds a `FileSystemNode` per remaining entry; directories
recurse into their own listing.  (The source tests `entry.name` once before
the `isDirectory` branch; testing it in each branch is the same per-entry
behaviour.)  The `id` is the (injective) encoding of the relative path,
modelled by the path itself. -/
def scanDirectory : List FsEntry → String → List FileSystemNode
  | [], _ => []
  | .file n size birth mt :: es, rel =>
    if startsWithDot n then scanDirectory es rel
    else
      .mk (joinRel rel n) n "file" (joinRel rel n) (some size) (some birth)
        (some mt) none true :: scanDirectory es rel
  | .dir n birth mt sub :: es, rel =>
    if startsWithDot n then scanDirectory es rel
    else
      .mk (joinRel rel n) n "folder" (joinRel rel n) none (some birth)
        (some mt) (some (scanDirectory sub (joinRel rel n))) false
        :: scanDirectory es rel

/-- All node names occurring in a scanned forest, at any depth. -/
def allNodeNames : List FileSystemNode → List String
  | [] => []
  | .mk _ n _ _ _ _ _ c _ :: ns =>
    n :: ((match c with | some cs => allNodeNames cs | none => []) ++ allNodeNames ns)

/-- `syncAllFiles` / its inner `processDirectory` (syncfs.ts:540-569):
traverses the tree in `readdir` order, skips entries whose name starts with
`.` (line 550), recurses into directories, and uploads every remaining file;
`syncFile` (syncfs.ts:509-519) uploads under the `/`-normalised relative
path.  The result lists the relative paths pushed, in order. -/
def pushAllFiles : List FsEntry → String → List String
  | [], _ => []
  | .file n _ _ _ :: es, rel =>
    if startsWithDot n then pushAllFiles es rel
    else joinRel rel n :: pushAllFiles es rel
  | .dir n _ _ sub :: es, rel =>
    if startsWithDot n then pushAllFiles es rel
    else pushAllFiles sub (joinRel rel n) ++ pushAllFiles es rel

/-- `getAllFilesInDirectory(dirPath, baseRelativePath)` (syncfs.ts:577-604):
every non-directory entry contributes its relative path, directories are
expanded in place; note there is no dotfile filter here. -/
def getAllFilesInDirectory : List FsEntry → String → List String
  | [], _ => []
  | e :: es, base =>
    match e with
    | .dir n _ _ sub =>
      getAllFilesInDirectory sub (joinRel base n) ++ getAllFilesInDirectory es base
    | .file n _ _ _ => joinRel base n :: getAllFilesInDirectory es base

/-- Number of file entries in a forest, over all nested subdirectories. -/
def countFiles : List FsEntry → Nat
  | [] => 0
  | .file _ _ _ _ :: es => countFiles es + 1
  | .dir _ _ _ sub :: es => countFiles sub + countFiles es

/-- The forest with every dot-named entry (and everything below it) removed:
the part of the tree that the dotfile-filtering traversals (`scanDirectory`,
`syncAllFiles`) actually see. -/
def dotPrune : List FsEntry → List FsEntry
  | [] => []
  | .file n size birth mt :: es =>
    if startsWithDot n then dotPrune es
    else .file n size birth mt :: dotPrune es
  | .dir n birth mt sub :: es =>
    if startsWithDot n then dotPrune es
    else .dir n birth mt (dotPrune sub) :: dotPrune es

/-! ### The object-store client (`s3.ts`) -/

/-- The shape of an AWS SDK error as the code inspects it (s3.ts:128):
`{ name?: string; $metadata?: { httpStatusCode?: number } }`. -/
structure S3Error where
  name : Option String
  httpStatusCode : Option Nat
deriving Repr, DecidableEq

/-- `s3Error.name === 'NotFound' || s3Error.$metadata?.httpStatusCode === 404`
(s3.ts:46, s3.ts:129). -/
def isNotFoundError (e : S3Error) : Bool :=
  e.name == some "NotFound" || e.httpStatusCode == some 404

/-- The fields of a `HeadObjectCommand` response the code reads
(s3.ts:119-126): `LastModified`, `ETag` and the custom `Metadata` map.
Metadata values are ISO-8601 date strings, represented by the instants they
denote. -/
structure HeadObjectOutput where
  LastModified : Option Nat
  ETag : Option String
  Metadata : Option (List (String × Nat))
deriving Repr, DecidableEq

/-- `response.Metadata?.[k]` — `none` when the map itself is absent or the
key is missing. -/
def metadataLookup (m : Option (List (String × Nat))) (k : String) : Option Nat :=
  match m with
  | none => none
  | some l => (l.find? (fun p => p.fst == k)).map (·.snd)

/-- The value `S3Service.getObjectMetadata` resolves with (s3.ts:120-126). -/
structure ObjectMetadata where
  LastModified : Option Nat
  ETag : Option String
  XOriginalMtime : Option Nat
deriving Repr, DecidableEq

/-- `S3Service.getObjectMetadata(key)` (s3.ts:110-135), as a function of the
outcome of the underlying `HeadObjectCommand` send: on success it repackages
`LastModified`, `ETag` and `Metadata['x-original-mtime']`; a `NotFound` /
404 error becomes the `null` (here `none`) sentinel; any other error is
rethrown. -/
def getObjectMetadata (send : Except S3Error HeadObjectOutput) :
    Except S3Error (Option ObjectMetadata) :=
  match send with
  | .ok r =>
    .ok (some { LastModified := r.LastModified, ETag := r.ETag,
                XOriginalMtime := metadataLookup r.Metadata "x-original-mtime" })
  | .error e => if isNotFoundError e then .ok none else .error e

/-- One entry of a `ListObjectsV2` response; the SDK `_Object` has an
optional `Key` (syncfs.ts:384 guards `if (!file.Key) continue`). -/
structure ListedObject where
  Key : Option String
deriving Repr, DecidableEq

/-- `S3Service.listFiles(bucketName)` (s3.ts:89-103), as a function of the
outcome of the `ListObjectsV2Command` send: `response.Contents` when
present, `[]` when absent, and — the point of the claim C6 — `[]` again on
EVERY error, which is caught and logged. -/
def listFiles (send : Except S3Error (Option (List ListedObject))) :
    List ListedObject :=
  match send with
  | .ok (some contents) => contents
  | .ok none => []
  | .error _ => []

/-- The `PutObjectCommand` `uploadFile` constructs (s3.ts:224-231): key,
body bytes, and the custom metadata map with the single stamped entry. -/
structure PutCommand where
  Key : String
  Body : List Nat
  Metadata : List (String × Nat)
deriving Repr, DecidableEq

/-- What one call of `S3Service.uploadFile` did. -/
inductive UploadOutcome where
  /-- `isFileAccessible` failed: skipped, returns `false` (s3.ts:199-202). -/
  | skippedLocked
  /-- remote `XOriginalMtime` exists and is ≥ local mtime: skipped, returns
  `false` (s3.ts:213-218). -/
  | skippedRemoteNewer
  /-- a `PutObjectCommand` was issued; `sendOk` tells whether the send
  succeeded (`true` returned) or threw (caught, `false` returned)
  (s3.ts:222-239). -/
  | putIssued (cmd : PutCommand) (sendOk : Bool)
deriving Repr, DecidableEq

/-- The guard `metadata && metadata.XOriginalMtime && localMtime <=
metadata.XOriginalMtime` (s3.ts:213-215): the remote object exists, carries
an origin mtime, and that origin mtime is same-age-or-newer than the local
file. -/
def remoteIsSameAgeOrNewer (localMtime : Nat) (md : Option ObjectMetadata) : Bool :=
  match md with
  | some m =>
    match m.XOriginalMtime with
    | some remoteOrigin => decide (localMtime ≤ remoteOrigin)
    | none => false
  | none => false

/-- `S3Service.uploadFile(localFilePath, relativePath)` (s3.ts:197-240).
Inputs: whether the local file is accessible (not locked), the local file's
`mtime` and byte content, the relative path, the outcome of the
`HeadObjectCommand` for the derived key, and whether the `PutObjectCommand`
send would succeed.  A failure of the metadata fetch other than NotFound is
rethrown out of `uploadFile` (the call at s3.ts:212 is not inside a
try/catch). -/
def uploadFile (accessible : Bool) (localMtime : Nat) (body : List Nat)
    (relativePath : String) (headSend : Except S3Error HeadObjectOutput)
    (putSendOk : Bool) : Except S3Error UploadOutcome :=
  if !accessible then .ok .skippedLocked
  else
    let key := stripLeadingSlash relativePath
    match getObjectMetadata headSend with
    | .error e => .error e
    | .ok md =>
      if remoteIsSameAgeOrNewer localMtime md then .ok .skippedRemoteNewer
      else
        .ok (.putIssued
          { Key := key, Body := body,
            Metadata := [("x-original-mtime", localMtime)] } putSendOk)

/-- The boolean `uploadFile` resolves with. -/
def UploadOutcome.returnValue : UploadOutcome → Bool
  | .skippedLocked => false
  | .skippedRemoteNewer => false
  | .putIssued _ sendOk => sendOk

/-! ### The pull pass (`pullAllFilesFromS3`, syncfs.ts:379-428)

The loop body for one listed key runs inside its own `try`; a thrown error
is caught at syncfs.ts:417-420 and the loop continues with the next key.
The local filesystem under `baseDir` is an oracle `fs : String → Option Nat`
giving the mtime of the file at a relative key, `none` when
`fs.existsSync(localPath)` is false.  `S3Service.downloadFile` catches all
its own errors and returns a boolean (s3.ts:140-168), so it never throws
into the loop. -/

/-- The body of one iteration of the pull loop (syncfs.ts:389-416), before
the per-key catch: `.ok true` when the key is downloaded, `.ok false` when
it is skipped, `.error` when `getObjectMetadata` throws. -/
def pullKeyStep (fs : String → Option Nat)
    (heads : String → Except S3Error HeadObjectOutput) (s3Key : String) :
    Except S3Error Bool :=
  match fs s3Key with
  | none => .ok true
  | some localMtime =>
    match getObjectMetadata (heads s3Key) with
    | .error e => .error e
    | .ok none => .ok false
    | .ok (some metadata) =>
      match metadata.LastModified with
      | none => .ok false
      | some remoteLastModified => .ok (decide (localMtime < remoteLastModified))

/-- One iteration with its surrounding catch (syncfs.ts:417-420): a thrown
error is logged and the key is simply not downloaded. -/
def pullKeyDownloads (fs : String → Option Nat)
    (heads : String → Except S3Error HeadObjectOutput) (s3Key : String) : Bool :=
  match pullKeyStep fs heads s3Key with
  | .ok b => b
  | .error _ => false

/-- `pullAllFilesFromS3(baseDir)` (syncfs.ts:379-428), returning the list of
keys it downloads.  The outer try/catch (syncfs.ts:424-427) rethrows, but
its body can no longer throw: `listFiles` recovers internally, and every
loop iteration recovers via `pullKeyDownloads`; hence the result is an `.ok`
for every oracle.  (Entries without a `Key` are skipped at syncfs.ts:384.
Keys in one S3 listing are pairwise distinct, so the per-key decisions are
independent and the local-filesystem oracle is not threaded through the
loop.) -/
def pullAllFilesFromS3 (listSend : Except S3Error (Option (List ListedObject)))
    (fs : String → Option Nat)
    (heads : String → Except S3Error HeadObjectOutput) :
    Except S3Error (List String) :=
  let files := listFiles listSend
  .ok (files.filterMap (fun f =>
    match f.Key with
    | none => none
    | some s3Key => if pullKeyDownloads fs heads s3Key then some s3Key else none))

/-- Modelled from the spec (§4.4 `pullAll`), for comparison with the code:
for a listed key, download unconditionally when no local file exists;
otherwise download exactly when the remote `originOriginalMtime`
(`x-original-mtime`) is strictly greater than the local mtime, and skip when
the object carries no origin-mtime metadata. -/
def specPullDecision (fs : String → Option Nat)
    (heads : String → Except S3Error HeadObjectOutput) (s3Key : String) : Bool :=
  match fs s3Key with
  | none => true
  | some localMtime =>
    match getObjectMetadata (heads s3Key) with
    | .ok (some metadata) =>
      match metadata.XOriginalMtime with
      | some remoteOrigin => decide (localMtime < remoteOrigin)
      | none => false
    | _ => false

/-! ### Watcher events (`initFileSystemWatcher`, syncfs.ts:33-87) -/

/-- The externally visible actions a watcher event handler performs. -/
inductive SyncAction where
  /-- `updateFileSystemData`: rebuild and republish the snapshot. -/
  | refreshSnapshot
  /-- `syncFile`: push one local file (by relative path) to the store. -/
  | pushFile (relativePath : String)
  /-- `deleteFile`: remove one remote key. -/
  | removeRemote (relativePath : String)
  /-- `pullAllFilesFromS3`: a full pull pass. -/
  | pullAllRemote
deriving Repr, DecidableEq

/-- Is the action a single-file push? -/
def SyncAction.isPush : SyncAction → Bool
  | .pushFile _ => true
  | _ => false

/-- The `ready` handler (syncfs.ts:56-59): `updateFileSystemData(mainWindow)`
then `syncAllFiles(userFilesDir)` — a snapshot refresh followed by the
push-all traversal.  `entries` is the watched root's listing. -/
def onReadyActions (entries : List FsEntry) : List SyncAction :=
  .refreshSnapshot :: (pushAllFiles entries "").map .pushFile

/-- Modelled from the spec (§4.1): "`ready` triggers one full bidirectional
pass: refresh snapshot, then push-all followed by pull-all." -/
def specReadyActions (entries : List FsEntry) : List SyncAction :=
  .refreshSnapshot :: ((pushAllFiles entries "").map .pushFile ++ [.pullAllRemote])

/-! ### The IPC surface (`registerFileSystemHandlers`, syncfs.ts:92-374)

Every handler resolves with a `{success, error?, content?}` object.  Each
handler body is modelled as a function of boolean existence checks and of
`Except String Unit` oracles, one per awaited fallible filesystem call,
sequenced exactly as in the source; the surrounding `try/catch` becomes
`wrapHandler`. -/

/-- The `{success: bool, error?: string, content?: string}` result object. -/
structure Envelope where
  success : Bool
  error : Option String
  content : Option String
deriving Repr, DecidableEq

/-- A handler's `try { body; return {success:true} } catch (e) { return
{success:false, error: msg(e)} }` shell. -/
def wrapHandler (msg : String → String) (body : Except String Unit) : Envelope :=
  match body with
  | .ok _ => { success := true, error := none, content := none }
  | .error e => { success := false, error := some (msg e), content := none }

/-- `read-file-content` (syncfs.ts:99-108): `readRes` is the outcome of
`fs.promises.readFile(fullPath, 'utf-8')`. -/
def readFileContentHandler (readRes : Except String String) : Envelope :=
  match readRes with
  | .ok content => { success := true, error := none, content := some content }
  | .error _ => { success := false, error := some "读取文件失败", content := none }

/-- `force-sync-from-s3` (syncfs.ts:111-119): awaits `pullAllFilesFromS3`. -/
def forceSyncFromS3Handler (listSend : Except S3Error (Option (List ListedObject)))
    (fs : String → Option Nat)
    (heads : String → Except S3Error HeadObjectOutput) : Envelope :=
  match pullAllFilesFromS3 listSend fs heads with
  | .ok _ => { success := true, error := none, content := none }
  | .error _ => { success := false, error := some "同步失败", content := none }

/-- `create-file` (syncfs.ts:122-143): mkdir of the parent when missing,
then `writeFile`. -/
def createFileHandler (parentExists : Bool) (mkdirRes writeRes : Except String Unit) :
    Envelope :=
  wrapHandler (fun _ => "创建文件失败") (do
    if !parentExists then mkdirRes
    writeRes)

/-- `create-folder` (syncfs.ts:146-162): a single recursive `mkdir`. -/
def createFolderHandler (mkdirRes : Except String Unit) : Envelope :=
  wrapHandler (fun _ => "创建文件夹失败") mkdirRes

/-- `delete-item` (syncfs.ts:165-208): `stat` decides file vs directory.
For a directory, the remote deletes are each inside their own try/catch
(syncfs.ts:182-188) and `S3Service.deleteFile` itself never throws
(s3.ts:245-263), so only `rm` can fail; for a file, `S3Service.deleteFile`
never throws, so only `unlink` can fail. -/
def deleteItemHandler (statRes : Except String FsEntry)
    (rmRes unlinkRes : Except String Unit) : Envelope :=
  wrapHandler (fun _ => "删除失败") (do
    match statRes with
    | .error e => Except.error e
    | .ok (.dir _ _ _ _) => rmRes
    | .ok (.file _ _ _ _) => unlinkRes)

/-- `import-file` (syncfs.ts:211-265): early `{success:false}` when the
source is missing; otherwise mkdir of the target when missing, `copyFile`,
`stat`; the synthetic `watcher.emit('add')` does not throw. -/
def importFileHandler (sourceExists targetDirExists : Bool)
    (mkdirRes copyRes statRes : Except String Unit) : Envelope :=
  if !sourceExists then
    { success := false, error := some "源文件不存在", content := none }
  else
    wrapHandler (fun e => "导入失败: " ++ e) (do
      if !targetDirExists then mkdirRes
      copyRes
      statRes)

/-- `import-file-from-buffer` (syncfs.ts:268-314): mkdir of the target when
missing, `writeFile`, `stat`. -/
def importFileFromBufferHandler (targetDirExists : Bool)
    (mkdirRes writeRes statRes : Except String Unit) : Envelope :=
  wrapHandler (fun e => "导入失败: " ++ e) (do
    if !targetDirExists then mkdirRes
    writeRes
    statRes)

/-- `move-item` (syncfs.ts:317-373): early `{success:false}` when the source
is missing; otherwise mkdir of the target when missing, `rename`, `stat`;
the synthetic watcher events do not throw. -/
def moveItemHandler (sourceExists targetDirExists : Bool)
    (mkdirRes renameRes statRes : Except String Unit) : Envelope :=
  if !sourceExists then
    { success := false, error := some "源文件不存在", content := none }
  else
    wrapHandler (fun e => "移动失败: " ++ e) (do
      if !targetDirExists then mkdirRes
      renameRes
      statRes)

/-- A well-formed result envelope: success without an error message, or
failure with one. -/
def envelopeWellFormed (env : Envelope) : Bool :=
  (env.success && env.error.isNone) || (!env.success && env.error.isSome)

/-! ### The `delete-item` directory branch as an event trace
(syncfs.ts:174-192) -/

/-- Remote/local operations issued by the directory branch, in order. -/
inductive DeleteEvent where
  /-- `S3Service.deleteFile(filePath)` for one enumerated key. -/
  | remoteDelete (key : String)
  /-- `fs.promises.rm(fullPath, {recursive: true, force: true})`. -/
  | removeLocalTree (path : String)
deriving Repr, DecidableEq

/-- Is the event a remote delete? -/
def DeleteEvent.isRemoteDelete : DeleteEvent → Bool
  | .remoteDelete _ => true
  | .removeLocalTree _ => false

/-- The key a remote-delete event carries. -/
def DeleteEvent.deletedKey : DeleteEvent → Option String
  | .remoteDelete k => some k
  | .removeLocalTree _ => none

/-- The operation sequence of the `delete-item` directory branch
(syncfs.ts:174-192): enumerate `getAllFilesInDirectory(fullPath,
normalizedPath)`, issue one remote delete per enumerated key (failures are
caught per key, so every key still gets its call), then remove the local
subtree. -/
def deleteItemDirEvents (entries : List FsEntry) (normalizedPath fullPath : String) :
    List DeleteEvent :=
  (getAllFilesInDirectory entries normalizedPath).map .remoteDelete
    ++ [.removeLocalTree fullPath]

/-! ### Helper lemmas -/

/-- `getAllFilesInDirectory` enumerates one relative path per file entry of
the forest, so its length is the total file count. -/
theorem getAllFilesInDirectory_length (entries : List FsEntry) (base : String) :
    (getAllFilesInDirectory entries base).length = countFiles entries := by
  induction entries, base using getAllFilesInDirectory.induct <;>
    simp_all [getAllFilesInDirectory, countFiles]

/-- The push-all traversal uploads exactly the files of the dot-pruned
forest, in the same order and under the same relative keys as the
(unfiltered) delete-time enumeration of that pruned forest. -/
theorem pushAllFiles_eq_getAllFiles_dotPrune (entries : List FsEntry) (base : String) :
    pushAllFiles entries base = getAllFilesInDirectory (dotPrune entries) base := by
  induction entries, base using pushAllFiles.induct <;>
    simp_all [pushAllFiles, dotPrune, getAllFilesInDirectory, FsEntry.name]

/-! ### Claims -/

/-- C9: every snapshot produced by a scan contains no node whose name begins
with a dot, at any depth: `scanDirectory` skips dotfile entries before
building a node, so dotfiles never appear in the published tree. -/
theorem scanDirectory_no_dotfile_nodes (entries : List FsEntry) (rel : String) :
    (allNodeNames (scanDirectory entries rel)).all (fun n => !startsWithDot n) := by
  induction entries, rel using scanDirectory.induct <;>
    simp_all [scanDirectory, allNodeNames]

/-- C4: for a directory with `N` files over all nested subdirectories, the
`delete-item` handler issues exactly `N` remote delete calls — one per
enumerated relative key, in enumeration order — and removes the local
subtree only after all of them: the local removal is the last event and
every earlier event is a remote delete. -/
theorem deleteItemDir_remote_deletes_before_local_removal
    (entries : List FsEntry) (normalizedPath fullPath : String) :
    ((deleteItemDirEvents entries normalizedPath fullPath).filter
        DeleteEvent.isRemoteDelete).length = countFiles entries
    ∧ (deleteItemDirEvents entries normalizedPath fullPath).filterMap
        DeleteEvent.deletedKey = getAllFilesInDirectory entries normalizedPath
    ∧ (deleteItemDirEvents entries normalizedPath fullPath).dropLast.all
        DeleteEvent.isRemoteDelete
    ∧ (deleteItemDirEvents entries normalizedPath fullPath).getLast? =
        some (.removeLocalTree fullPath) := by
  refine ⟨?_, ?_, ?_, ?_⟩ <;>
    simp [deleteItemDirEvents, List.filter_append, List.filter_map,
      List.filterMap_append, List.filterMap_map, Function.comp_def,
      DeleteEvent.isRemoteDelete, DeleteEvent.deletedKey,
      List.dropLast_concat, List.getLast?_concat,
      getAllFilesInDirectory_length, List.all_eq_true]

/-- C10: the enumeration `deleteItem` uses for a directory does not skip
dotfiles, unlike the scan and push-all traversals: a dot-named file
contributes its relative key to `getAllFilesInDirectory`, while the push-all
and scan traversals ignore the entry entirely; in general the push-all
traversal sees only the dot-pruned forest, so the keys of dotfiles are
deleted remotely but never uploaded. -/
theorem deleteEnumeration_keeps_dotfiles_push_skips
    (n : String) (size birth mt : Nat) (rest : List FsEntry) (base : String)
    (hdot : startsWithDot n = true) :
    joinRel base n ∈ getAllFilesInDirectory (.file n size birth mt :: rest) base
    ∧ pushAllFiles (.file n size birth mt :: rest) base = pushAllFiles rest base
    ∧ scanDirectory (.file n size birth mt :: rest) base = scanDirectory rest base
    ∧ ∀ (entries : List FsEntry) (b : String),
        pushAllFiles entries b = getAllFilesInDirectory (dotPrune entries) b := by
  refine ⟨?_, ?_, ?_, fun entries b => pushAllFiles_eq_getAllFiles_dotPrune entries b⟩ <;>
    simp [getAllFilesInDirectory, pushAllFiles, scanDirectory, hdot]

/-- Witness for C10 at a concrete input: in a directory listing holding the
single hidden file `.cfg`, the delete-time enumeration yields its key while
push-all and scan behave as on the empty listing. -/
theorem deleteEnumeration_keeps_dotfiles_push_skips_witness :
    joinRel "docs" ".cfg" ∈
        getAllFilesInDirectory [FsEntry.file ".cfg" 1 0 0] "docs"
    ∧ pushAllFiles [FsEntry.file ".cfg" 1 0 0] "docs" = pushAllFiles [] "docs"
    ∧ scanDirectory [FsEntry.file ".cfg" 1 0 0] "docs" = scanDirectory [] "docs"
    ∧ ∀ (entries : List FsEntry) (b : String),
        pushAllFiles entries b = getAllFilesInDirectory (dotPrune entries) b :=
  deleteEnumeration_keeps_dotfiles_push_skips ".cfg" 1 0 0 [] "docs" (by decide)

/-- C2 counterexample: on a root listing holding the single file `a.txt`,
the `ready` handler performs a snapshot refresh and the push, but no pull:
`pullAllRemote` is not among its actions, so `ready` is not the full
bidirectional pass the claim describes (`specReadyActions`). -/
theorem onReady_counterexample :
    SyncAction.pullAllRemote ∉ onReadyActions [FsEntry.file "a.txt" 1 0 5]
    ∧ onReadyActions [FsEntry.file "a.txt" 1 0 5] ≠
        specReadyActions [FsEntry.file "a.txt" 1 0 5] := by
  constructor <;>
    simp +decide [onReadyActions, specReadyActions, pushAllFiles, joinRel,
      startsWithDot]

/-- C2 amended: when the watcher emits `ready`, the engine refreshes the
tree snapshot and then pushes every (non-dot) local file to the store; it
performs no pull — every action after the refresh is a single-file push and
`pullAllRemote` never occurs.  The pull pass runs only via the
`force-sync-from-s3` surface. -/
theorem onReady_refresh_then_push_only (entries : List FsEntry) :
    onReadyActions entries =
        SyncAction.refreshSnapshot ::
          (pushAllFiles entries "").map SyncAction.pushFile
    ∧ (onReadyActions entries).head? = some SyncAction.refreshSnapshot
    ∧ (onReadyActions entries).tail.all SyncAction.isPush
    ∧ SyncAction.pullAllRemote ∉ onReadyActions entries := by
  refine ⟨rfl, rfl, ?_, ?_⟩
  · simp [onReadyActions, List.all_map, Function.comp_def, SyncAction.isPush]
  · simp [onReadyActions, List.mem_map]

/-- C1 (code evaluated at the failing input): the local file has mtime 5,
the remote object's `x-original-mtime` is 0 (strictly older), yet its store
`LastModified` is 10, so the pull pass downloads it — syncfs.ts:413 compares
`metadata.LastModified`, the store's own write time, not the origin mtime —
whereas the claimed decision (`specPullDecision`, the spec's words) skips. -/
theorem pull_compares_lastModified_not_origin :
    pullKeyDownloads (fun _ => some 5)
        (fun _ => .ok { LastModified := some 10, ETag := some "etag",
                        Metadata := some [("x-original-mtime", 0)] })
        "docs/a.txt" = true
    ∧ specPullDecision (fun _ => some 5)
        (fun _ => .ok { LastModified := some 10, ETag := some "etag",
                        Metadata := some [("x-original-mtime", 0)] })
        "docs/a.txt" = false
    ∧ pullAllFilesFromS3 (.ok (some [{ Key := some "docs/a.txt" }]))
        (fun _ => some 5)
        (fun _ => .ok { LastModified := some 10, ETag := some "etag",
                        Metadata := some [("x-original-mtime", 0)] }) =
        .ok ["docs/a.txt"] :=
  ⟨rfl, rfl, rfl⟩

/-- C5 (code evaluated at the failing input): the remote object carries no
`x-original-mtime` metadata at all (`XOriginalMtime = none`), a local file
exists with mtime 5, and yet the pull pass downloads — and hence overwrites
the local file — because the store `LastModified` 10 exceeds 5; the
origin-mtime-less object is not skipped. -/
theorem pull_downloads_object_without_origin_mtime :
    getObjectMetadata
        (.ok { LastModified := some 10, ETag := some "etag", Metadata := none }) =
      .ok (some { LastModified := some 10, ETag := some "etag",
                  XOriginalMtime := none })
    ∧ pullKeyDownloads (fun _ => some 5)
        (fun _ => .ok { LastModified := some 10, ETag := some "etag",
                        Metadata := none })
        "notes/b.txt" = true :=
  ⟨rfl, rfl⟩

/-- C3: with the local file accessible, `uploadFile` skips exactly when the
remote object exists and carries an origin mtime ≥ the local file's mtime;
otherwise it issues a put whose body is the local file content and whose
`x-original-mtime` metadata is the local file's own mtime — no upload
instant enters the stamped metadata. -/
theorem uploadFile_lastWriterWins (localMtime : Nat) (body : List Nat)
    (relativePath : String) (headSend : Except S3Error HeadObjectOutput)
    (putSendOk : Bool) (md : Option ObjectMetadata)
    (hmd : getObjectMetadata headSend = .ok md) :
    (remoteIsSameAgeOrNewer localMtime md = true ↔
      ∃ m remoteOrigin, md = some m ∧ m.XOriginalMtime = some remoteOrigin ∧
        localMtime ≤ remoteOrigin)
    ∧ (remoteIsSameAgeOrNewer localMtime md = true →
      uploadFile true localMtime body relativePath headSend putSendOk =
        .ok .skippedRemoteNewer)
    ∧ (remoteIsSameAgeOrNewer localMtime md = false →
      uploadFile true localMtime body relativePath headSend putSendOk =
        .ok (.putIssued
          { Key := stripLeadingSlash relativePath, Body := body,
            Metadata := [("x-original-mtime", localMtime)] } putSendOk)) := by
  refine ⟨?_, ?_, ?_⟩
  · match md with
    | none => simp [remoteIsSameAgeOrNewer]
    | some m =>
      match h : m.XOriginalMtime with
      | none => simp [remoteIsSameAgeOrNewer, h]
      | some t => simp [remoteIsSameAgeOrNewer, h]
  all_goals intro h
  all_goals simp [uploadFile, hmd, h]

/-- Witness for C3: a remote origin mtime of 7 makes `uploadFile` skip a
local file of mtime 5 and upload a local file of mtime 9, the latter
stamping 9 (the local mtime) into the metadata. -/
theorem uploadFile_lastWriterWins_witness :
    uploadFile true 5 [104, 105] "/docs/a.txt"
        (.ok { LastModified := some 50, ETag := some "e",
               Metadata := some [("x-original-mtime", 7)] }) true =
      .ok .skippedRemoteNewer
    ∧ uploadFile true 9 [104, 105] "/docs/a.txt"
        (.ok { LastModified := some 50, ETag := some "e",
               Metadata := some [("x-original-mtime", 7)] }) true =
      .ok (.putIssued
        { Key := stripLeadingSlash "/docs/a.txt", Body := [104, 105],
          Metadata := [("x-original-mtime", 9)] } true) :=
  ⟨(uploadFile_lastWriterWins 5 [104, 105] "/docs/a.txt"
      (.ok { LastModified := some 50, ETag := some "e",
             Metadata := some [("x-original-mtime", 7)] }) true
      (some { LastModified := some 50, ETag := some "e",
              XOriginalMtime := some 7 }) rfl).2.1 (by decide),
    (uploadFile_lastWriterWins 9 [104, 105] "/docs/a.txt"
      (.ok { LastModified := some 50, ETag := some "e",
             Metadata := some [("x-original-mtime", 7)] }) true
      (some { LastModified := some 50, ETag := some "e",
              XOriginalMtime := some 7 }) rfl).2.2 (by decide)⟩

/-- C6: `force-sync-from-s3` resolves with `{success: true}` for every
remote-store state: `listFiles` turns every transport error into the empty
listing, every per-key failure in the pull loop is caught, so
`pullAllFilesFromS3` always resolves and the failure envelope is
unreachable. -/
theorem forceSync_always_success
    (listSend : Except S3Error (Option (List ListedObject)))
    (fs : String → Option Nat)
    (heads : String → Except S3Error HeadObjectOutput) :
    forceSyncFromS3Handler listSend fs heads =
        { success := true, error := none, content := none }
    ∧ (∃ downloads, pullAllFilesFromS3 listSend fs heads = .ok downloads)
    ∧ (∀ e : S3Error, listFiles (.error e) = []) :=
  ⟨rfl, ⟨_, rfl⟩, fun _ => rfl⟩

/-- C7: `getObjectMetadata` maps a NotFound / 404 send error to the distinct
`none` sentinel and rethrows every other send error unchanged, so callers
can always distinguish absence from a transport failure; a successful send
yields the repackaged metadata (never the sentinel). -/
theorem getObjectMetadata_notFound_sentinel (send : Except S3Error HeadObjectOutput) :
    (∀ e : S3Error, send = .error e →
      (isNotFoundError e = true → getObjectMetadata send = .ok none)
      ∧ (isNotFoundError e = false → getObjectMetadata send = .error e))
    ∧ (∀ r : HeadObjectOutput, send = .ok r →
      getObjectMetadata send =
        .ok (some { LastModified := r.LastModified, ETag := r.ETag,
                    XOriginalMtime := metadataLookup r.Metadata "x-original-mtime" })) := by
  constructor
  · intro e he; subst he
    constructor <;> intro h <;> simp [getObjectMetadata, h]
  · intro r hr; subst hr; rfl

/-- Witness for C7: a 404 head error yields the `none` sentinel; an
internal-server error is rethrown as-is. -/
theorem getObjectMetadata_notFound_sentinel_witness :
    getObjectMetadata
        (.error { name := some "NotFound", httpStatusCode := some 404 }) = .ok none
    ∧ getObjectMetadata
        (.error { name := some "InternalError", httpStatusCode := some 500 }) =
      .error { name := some "InternalError", httpStatusCode := some 500 } :=
  ⟨((getObjectMetadata_notFound_sentinel _).1 _ rfl).1 (by decide),
    ((getObjectMetadata_notFound_sentinel _).1 _ rfl).2 (by decide)⟩

/-- Any try/catch-wrapped handler body yields a well-formed envelope. -/
theorem envelopeWellFormed_wrapHandler (msg : String → String)
    (body : Except String Unit) : envelopeWellFormed (wrapHandler msg body) := by
  cases body <;> rfl

/-- C8: every handler of the public surface — create-file, create-folder,
delete-item, import-file, import-file-from-buffer, move-item,
read-file-content, force-sync-from-s3 — returns a `{success, error?}`
envelope for every input and every outcome of its fallible primitives:
success carries no error message, failure always carries one, and no
exception escapes the handler. -/
theorem handlers_return_result_envelope
    (readRes : Except String String)
    (listSend : Except S3Error (Option (List ListedObject)))
    (fs : String → Option Nat) (heads : String → Except S3Error HeadObjectOutput)
    (parentExists targetDirExists sourceExists : Bool)
    (mkdirRes writeRes copyRes statRes renameRes rmRes unlinkRes : Except String Unit)
    (statEntry : Except String FsEntry) :
    envelopeWellFormed (createFileHandler parentExists mkdirRes writeRes)
    ∧ envelopeWellFormed (createFolderHandler mkdirRes)
    ∧ envelopeWellFormed (deleteItemHandler statEntry rmRes unlinkRes)
    ∧ envelopeWellFormed
        (importFileHandler sourceExists targetDirExists mkdirRes copyRes statRes)
    ∧ envelopeWellFormed
        (importFileFromBufferHandler targetDirExists mkdirRes writeRes statRes)
    ∧ envelopeWellFormed
        (moveItemHandler sourceExists targetDirExists mkdirRes renameRes statRes)
    ∧ envelopeWellFormed (readFileContentHandler readRes)
    ∧ envelopeWellFormed (forceSyncFromS3Handler listSend fs heads) := by
  refine ⟨envelopeWellFormed_wrapHandler _ _, envelopeWellFormed_wrapHandler _ _,
    envelopeWellFormed_wrapHandler _ _, ?_, envelopeWellFormed_wrapHandler _ _,
    ?_, ?_, rfl⟩
  · cases sourceExists
    · rfl
    · exact envelopeWellFormed_wrapHandler _ _
  · cases sourceExists
    · rfl
    · exact envelopeWellFormed_wrapHandler _ _
  · cases readRes <;> rfl

end SyncFs
